import Mathlib

/-!
Shallow embedding of the core logic of neo-gui (src/main.rs): the
TextBuffer line log with scrolling, the AppMessage drain loop, and the
process_command interpreter. Rust String values are modelled as Lean
String; usize arithmetic uses Nat, whose truncated subtraction coincides
with usize::saturating_sub. Rust str::trim, str::to_lowercase and
str::starts_with are modelled by executable character-level functions
(trimStr, toLowerStr, startsWithStr) that agree with Rust on ASCII input;
all command verbs and every string in the claims are ASCII. The byte
slice cmd[5..] taken after cmd.starts_with("echo ") is modelled by
dropping five characters: the first five characters are ASCII, so the
byte offset 5 equals the character offset 5.
-/

namespace NeoGui

/-- TextBuffer from src/main.rs lines 31-35: the terminal text content.
Field max_lines is the capacity; scroll_position is the index of the
first visible line. -/
structure TextBuffer where
  lines : List String
  max_lines : Nat
  scroll_position : Nat
  deriving Repr, DecidableEq

namespace TextBuffer

/-- TextBuffer::new (lines 38-44): empty lines, scroll_position 0. -/
def new (maxLines : Nat) : TextBuffer :=
  { lines := [], max_lines := maxLines, scroll_position := 0 }

/-- TextBuffer::add_line (lines 46-56). If len >= max_lines the code calls
Vec::remove(0), decrements a positive scroll_position, then pushes and
finally sets scroll_position to len().saturating_sub(max_lines).
Vec::remove(0) on an empty vector panics in Rust; that happens only when
max_lines = 0 (every buffer in the program has max_lines = 1000). We
model the removal as List.tail, which agrees with Vec::remove(0) whenever
the vector is nonempty; theorems that depend on the eviction path assume
1 <= max_lines, which rules the panic case out. -/
def add_line (b : TextBuffer) (line : String) : TextBuffer :=
  let b1 :=
    if b.lines.length ≥ b.max_lines then
      { b with
          lines := b.lines.tail,
          scroll_position :=
            if b.scroll_position > 0 then b.scroll_position - 1 else b.scroll_position }
    else b
  let b2 := { b1 with lines := b1.lines ++ [line] }
  { b2 with scroll_position := b2.lines.length - b2.max_lines }

/-- TextBuffer::scroll_up (lines 58-62). -/
def scroll_up (b : TextBuffer) : TextBuffer :=
  if b.scroll_position > 0 then
    { b with scroll_position := b.scroll_position - 1 }
  else b

/-- TextBuffer::scroll_down (lines 64-69): max_scroll is
lines.len().saturating_sub(max_lines). -/
def scroll_down (b : TextBuffer) : TextBuffer :=
  let maxScroll := b.lines.length - b.max_lines
  if b.scroll_position < maxScroll then
    { b with scroll_position := b.scroll_position + 1 }
  else b

/-- TextBuffer::scroll_to_top (lines 71-73). -/
def scroll_to_top (b : TextBuffer) : TextBuffer :=
  { b with scroll_position := 0 }

/-- TextBuffer::scroll_to_bottom (lines 75-77). -/
def scroll_to_bottom (b : TextBuffer) : TextBuffer :=
  { b with scroll_position := b.lines.length - b.max_lines }

/-- TextBuffer::visible_lines (lines 79-87): the slice
lines[start..end] with start = scroll_position and
end = min(start + max_lines, lines.len()), or the empty slice when
start >= lines.len(). The Rust slice lines[start..end] is
(lines.drop start).take (end - start). -/
def visible_lines (b : TextBuffer) : List String :=
  let start := b.scroll_position
  let stop := min (start + b.max_lines) b.lines.length
  if start < b.lines.length then
    (b.lines.drop start).take (stop - start)
  else
    []

/-- TextBuffer::is_at_bottom (lines 89-91):
scroll_position >= lines.len().saturating_sub(max_lines). -/
def is_at_bottom (b : TextBuffer) : Bool :=
  decide (b.scroll_position ≥ b.lines.length - b.max_lines)

/-- The max_scroll quantity used by scroll_down and scroll_to_bottom:
lines.len().saturating_sub(max_lines), i.e. max(0, len - max_lines). -/
def maxScroll (b : TextBuffer) : Nat :=
  b.lines.length - b.max_lines

/-- Folding a sequence of add_line calls over a buffer, oldest first. -/
def addLines (b : TextBuffer) (xs : List String) : TextBuffer :=
  xs.foldl add_line b

end TextBuffer

/-- AppMessage (src/main.rs lines 24-28): messages from async tasks to the
UI thread. -/
inductive AppMessage where
  | TaskCompleted : String → AppMessage
  | NewLine : String → AppMessage
  deriving Repr, DecidableEq

/-- AppState (lines 95-100), restricted to the fields the core logic
reads and writes: the text buffer and the status line. The channel
receiver and the command input box are I/O plumbing outside the
embedding. -/
structure AppState where
  text_buffer : TextBuffer
  status_message : String
  deriving Repr, DecidableEq

/-- Effect of one drained message on the state, from the match in
NeoTermApp::run (lines 297-305): TaskCompleted(result) sets
status_message to "STATUS: {result}" and appends "[ASYNC] {result}";
NewLine(line) appends line unchanged. -/
def applyMessage (s : AppState) (m : AppMessage) : AppState :=
  match m with
  | .TaskCompleted result =>
      { status_message := "STATUS: " ++ result,
        text_buffer := s.text_buffer.add_line ("[ASYNC] " ++ result) }
  | .NewLine line =>
      { s with text_buffer := s.text_buffer.add_line line }

/-- Draining all pending messages in FIFO arrival order (the
while try_recv loop, lines 297-305). -/
def drainAll (s : AppState) (msgs : List AppMessage) : AppState :=
  msgs.foldl applyMessage s

/-- Rust char::to_lowercase restricted to ASCII: maps A-Z (code points
65-90) to a-z and leaves every other character unchanged. Rust performs
full Unicode lowercasing; every verb and every string in the claims is
ASCII, where the two agree. -/
def lowerChar (c : Char) : Char :=
  if 65 ≤ c.toNat ∧ c.toNat ≤ 90 then Char.ofNat (c.toNat + 32) else c

/-- Rust str::to_lowercase on ASCII input: lowercase every character. -/
def toLowerStr (s : String) : String :=
  ⟨s.data.map lowerChar⟩

/-- Rust char::is_whitespace restricted to ASCII: the White_Space code
points below 128 are tab, LF, VT, FF, CR and space. -/
def isWsChar (c : Char) : Bool :=
  decide (c = ' ' ∨ c = '\t' ∨ c = '\n' ∨ c = '\r' ∨ c.toNat = 11 ∨ c.toNat = 12)

/-- Rust str::trim on ASCII input: drop whitespace from both ends. -/
def trimStr (s : String) : String :=
  ⟨((s.data.dropWhile isWsChar).reverse.dropWhile isWsChar).reverse⟩

/-- Rust str::starts_with for a string pattern. -/
def startsWithStr (s p : String) : Bool :=
  p.data.isPrefixOf s.data

/-- The Rust byte slice s[n..] for the uses in this program, where the
first n bytes are ASCII, so byte offset n is character offset n. -/
def dropStr (s : String) (n : Nat) : String :=
  ⟨s.data.drop n⟩

/-- The help lines appended by the help arm (lines 384-399). -/
def helpText : List String :=
  [ "Available commands:",
    "  help, ?          - Show this help message",
    "  clear            - Clear the terminal",
    "  status           - Show system status",
    "  echo <text>      - Echo text back",
    "  time             - Show current time",
    "  date             - Show current date",
    "  async-task       - Run async task",
    "  log              - Generate log entry",
    "  scroll-top       - Scroll to top",
    "  scroll-bottom    - Scroll to bottom" ]

/-- Dispatch on the already trimmed-and-lowercased command string, in the
arm order of the match in process_command (lines 382-456). The time and
date arms format the current wall clock; the clock readings are passed in
as timeStr and dateStr since they are ambient input, not state. The
async-task arm spawns a task and synchronously appends the
acknowledgement line; the log arm only spawns a task, so synchronously it
leaves the state unchanged (the spawned sends arrive later as AppMessage
values and are modelled by drainAll). -/
def processCmdLower (cmd : String) (state : AppState) (timeStr dateStr : String) : AppState :=
  if cmd = "help" ∨ cmd = "?" then
    { state with text_buffer := TextBuffer.addLines state.text_buffer helpText }
  else if cmd = "clear" then
    { state with text_buffer := (TextBuffer.new 1000).add_line "Terminal cleared." }
  else if cmd = "status" then
    { state with text_buffer :=
        state.text_buffer.add_line ("System Status: " ++ state.status_message) }
  else if startsWithStr cmd "echo " then
    { state with text_buffer := state.text_buffer.add_line (dropStr cmd 5) }
  else if cmd = "time" then
    { state with text_buffer := state.text_buffer.add_line ("Current time: " ++ timeStr) }
  else if cmd = "date" then
    { state with text_buffer := state.text_buffer.add_line ("Current date: " ++ dateStr) }
  else if cmd = "async-task" then
    { state with text_buffer := state.text_buffer.add_line "Async task initiated." }
  else if cmd = "log" then
    state
  else if cmd = "scroll-top" then
    { state with text_buffer := state.text_buffer.scroll_to_top.add_line "Scrolled to top." }
  else if cmd = "scroll-bottom" then
    { state with text_buffer :=
        state.text_buffer.scroll_to_bottom.add_line "Scrolled to bottom." }
  else if cmd = "" then
    state
  else
    { state with text_buffer :=
        (state.text_buffer.add_line
          ("Unknown command: \x27" ++ cmd ++ "\x27. Type \x27help\x27 for available commands.")) }

/-- process_command (lines 379-457): lowercases the trimmed input, then
dispatches. Note that the whole command, argument payload included, is
lowercased before any arm runs. -/
def process_command (command : String) (state : AppState) (timeStr dateStr : String) : AppState :=
  processCmdLower (toLowerStr (trimStr command)) state timeStr dateStr

/-- The banner written at startup by NeoTermApp::new (lines 233-244). -/
def asciiArt : List String :=
  [ "███╗   ██╗███████╗ ██████╗",
    "████╗  ██║██╔════╝██╔═══██╗",
    "██╔██╗ ██║█████╗  ██║   ██║",
    "██║╚██╗██║██╔══╝  ██║   ██║",
    "██║ ╚████║███████╗╚██████╔╝",
    "╚═╝  ╚═══╝╚══════╝ ╚═════╝ ",
    "",
    "Welcome to Neo-Term. Standby for commands." ]

/-- The buffer right after startup: TextBuffer::new(1000) with the banner
appended line by line (lines 225-245). -/
def startupBuffer : TextBuffer :=
  TextBuffer.addLines (TextBuffer.new 1000) asciiArt

/-- One primitive mutation of the text buffer as performed anywhere in the
program: an add_line with an arbitrary string (covering echoed input,
interpreter output lines, help lines, and drained NewLine or
TaskCompleted messages), one of the four scroll operations (from the
scroll commands and the scroll buttons in draw_ui), or the clear command
arm, which replaces the buffer with TextBuffer::new(1000) and appends its
confirmation line (lines 401-404). -/
inductive ConsoleOp where
  | addLine : String → ConsoleOp
  | scrollUp : ConsoleOp
  | scrollDown : ConsoleOp
  | scrollTop : ConsoleOp
  | scrollBottom : ConsoleOp
  | clearCmd : ConsoleOp
  deriving Repr, DecidableEq

/-- Applying one ConsoleOp to a buffer. -/
def applyOp (b : TextBuffer) : ConsoleOp → TextBuffer
  | .addLine s => b.add_line s
  | .scrollUp => b.scroll_up
  | .scrollDown => b.scroll_down
  | .scrollTop => b.scroll_to_top
  | .scrollBottom => b.scroll_to_bottom
  | .clearCmd => (TextBuffer.new 1000).add_line "Terminal cleared."

/-- Buffer states reachable from startup by any interleaving of the
program's buffer mutations. -/
inductive Reachable : TextBuffer → Prop where
  | startup : Reachable startupBuffer
  | step {b : TextBuffer} (op : ConsoleOp) : Reachable b → Reachable (applyOp b op)

/-- A concrete app state used by witnesses and counterexamples: the state
right after the channel and buffer are created (lines 223-230), before
the banner. -/
def sampleState : AppState :=
  { text_buffer := TextBuffer.new 1000, status_message := "STATUS: System nominal." }

/-! Helper lemmas about the buffer operations. -/

theorem add_line_lines (b : TextBuffer) (x : String) :
    (b.add_line x).lines =
      (if b.lines.length ≥ b.max_lines then b.lines.tail else b.lines) ++ [x] := by
  by_cases h : b.lines.length ≥ b.max_lines <;> simp [TextBuffer.add_line, h]

theorem add_line_max_lines (b : TextBuffer) (x : String) :
    (b.add_line x).max_lines = b.max_lines := by
  by_cases h : b.lines.length ≥ b.max_lines <;> simp [TextBuffer.add_line, h]

theorem add_line_scroll_position (b : TextBuffer) (x : String) :
    (b.add_line x).scroll_position = (b.add_line x).lines.length - b.max_lines := by
  by_cases h : b.lines.length ≥ b.max_lines <;> simp [TextBuffer.add_line, h]

theorem add_line_length_le (b : TextBuffer) (x : String) (hb : 1 ≤ b.max_lines)
    (hlen : b.lines.length ≤ b.max_lines) :
    (b.add_line x).lines.length ≤ b.max_lines := by
  rw [add_line_lines]
  by_cases h : b.lines.length ≥ b.max_lines <;>
    simp [h, List.length_tail] <;> omega

theorem addLines_cons (b : TextBuffer) (x : String) (xs : List String) :
    b.addLines (x :: xs) = (b.add_line x).addLines xs :=
  rfl

theorem addLines_append_singleton (b : TextBuffer) (xs : List String) (x : String) :
    b.addLines (xs ++ [x]) = (b.addLines xs).add_line x := by
  simp [TextBuffer.addLines, List.foldl_append]

theorem addLines_max_lines (xs : List String) (b : TextBuffer) :
    (b.addLines xs).max_lines = b.max_lines := by
  induction xs generalizing b with
  | nil => rfl
  | cons x xs ih => rw [addLines_cons, ih, add_line_max_lines]

theorem addLines_length_le (xs : List String) (b : TextBuffer) (hb : 1 ≤ b.max_lines)
    (hlen : b.lines.length ≤ b.max_lines) :
    (b.addLines xs).lines.length ≤ b.max_lines := by
  induction xs generalizing b with
  | nil => exact hlen
  | cons x xs ih =>
      rw [addLines_cons]
      have h1 := add_line_length_le b x hb hlen
      have h2 := add_line_max_lines b x
      have := ih (b.add_line x) (by rw [h2]; exact hb) (by rw [h2]; exact h1)
      rwa [h2] at this

theorem addLines_new_lines {C : Nat} (hC : 1 ≤ C) (xs : List String) :
    ((TextBuffer.new C).addLines xs).lines = xs.drop (xs.length - C) := by
  induction xs using List.reverseRecOn with
  | nil => simp [TextBuffer.addLines, TextBuffer.new]
  | append_singleton xs x ih =>
      rw [addLines_append_singleton, add_line_lines, ih, addLines_max_lines]
      have hlen : (xs.drop (xs.length - C)).length = xs.length - (xs.length - C) :=
        List.length_drop _ _
      by_cases hx : C ≤ xs.length
      · have hcond : (xs.drop (xs.length - C)).length ≥ (TextBuffer.new C).max_lines := by
          show _ ≥ C
          omega
        have e1 : (xs ++ [x]).length - C = xs.length + 1 - C := by simp
        have e2 : xs.length - C + 1 = xs.length + 1 - C := by omega
        rw [if_pos hcond, List.tail_drop, e2, e1,
          List.drop_append_of_le_length (by omega : xs.length + 1 - C ≤ xs.length)]
      · have hcond : ¬((xs.drop (xs.length - C)).length ≥ (TextBuffer.new C).max_lines) := by
          show ¬(_ ≥ C)
          omega
        rw [if_neg hcond]
        have h0 : xs.length - C = 0 := by omega
        have h1 : xs.length + 1 - C = 0 := by omega
        simp [h0, h1]

/-- C1: starting from a freshly constructed buffer of any positive
capacity C, every sequence of add_line calls leaves at most C lines in
the buffer (and since the sequence is arbitrary, the bound holds after
every call); when the buffer is full (len = capacity, so one more
insertion would exceed it) add_line drops exactly the single oldest line
before appending, and when it is not full nothing is evicted. Capacity 0
is excluded: there the Rust code panics in Vec::remove(0) on the first
call; every buffer the program builds has capacity 1000. -/
theorem add_line_capacity_invariant (C : Nat) (hC : 1 ≤ C) :
    (∀ xs : List String, ((TextBuffer.new C).addLines xs).lines.length ≤ C) ∧
    (∀ (b : TextBuffer) (x : String), b.max_lines = C → b.lines.length = C →
      (b.add_line x).lines = b.lines.tail ++ [x]) ∧
    (∀ (b : TextBuffer) (x : String), b.max_lines = C → b.lines.length < C →
      (b.add_line x).lines = b.lines ++ [x]) := by
  refine ⟨fun xs => addLines_length_le xs _ hC (by simp [TextBuffer.new]), ?_, ?_⟩
  · intro b x hmax hfull
    rw [add_line_lines, if_pos (by omega)]
  · intro b x hmax hlt
    rw [add_line_lines, if_neg (by omega)]

/-- Witness for C1 at capacity 3 and inputs a, b, c, d. -/
theorem add_line_capacity_invariant_witness :
    ((TextBuffer.new 3).addLines ["a", "b", "c", "d"]).lines.length ≤ 3 ∧
    (TextBuffer.add_line
        { lines := ["a", "b", "c"], max_lines := 3, scroll_position := 0 } "d").lines
      = ["b", "c", "d"] := by
  constructor
  · exact (add_line_capacity_invariant 3 (by decide)).1 ["a", "b", "c", "d"]
  · have h := (add_line_capacity_invariant 3 (by decide)).2.1
      { lines := ["a", "b", "c"], max_lines := 3, scroll_position := 0 } "d" rfl (by decide)
    simpa using h

/-- C2: for every positive capacity C, running N >= C add_line calls on a
buffer of capacity C that starts empty leaves exactly the last C inserted
lines, in insertion order. Capacity 0 is excluded: there the Rust code
panics in Vec::remove(0) on the first call. -/
theorem add_line_keeps_last_capacity (C : Nat) (hC : 1 ≤ C) (xs : List String)
    (_hN : C ≤ xs.length) :
    ((TextBuffer.new C).addLines xs).lines = xs.drop (xs.length - C) :=
  addLines_new_lines hC xs

/-- Witness for C2: capacity 3 with inputs a, b, c, d yields b, c, d. -/
theorem add_line_keeps_last_capacity_witness :
    ((TextBuffer.new 3).addLines ["a", "b", "c", "d"]).lines = ["b", "c", "d"] := by
  rw [add_line_keeps_last_capacity 3 (by decide) ["a", "b", "c", "d"] (by decide)]
  decide

theorem visible_lines_eq_drop_take (b : TextBuffer) :
    b.visible_lines = (b.lines.drop b.scroll_position).take b.max_lines := by
  simp only [TextBuffer.visible_lines]
  by_cases h : b.scroll_position < b.lines.length
  · rw [if_pos h, List.take_eq_take, List.length_drop]
    omega
  · rw [if_neg h, List.drop_eq_nil_of_le (by omega), List.take_nil]

/-- C7: visible_lines returns the slice
lines[scroll_offset .. min(scroll_offset + viewport_height, len(lines))]
(equivalently, at most viewport_height lines starting at scroll_offset),
its length never exceeds the viewport height, and it is empty rather than
failing when scroll_offset is at or past len(lines); the viewport height
is the max_lines field, the only height the code uses. Slicing by
drop/take never indexes past the end of the list. -/
theorem visible_lines_bounded (b : TextBuffer) :
    b.visible_lines = (b.lines.drop b.scroll_position).take b.max_lines ∧
    b.visible_lines.length ≤ b.max_lines ∧
    (b.lines.length ≤ b.scroll_position → b.visible_lines = []) := by
  refine ⟨visible_lines_eq_drop_take b, ?_, ?_⟩
  · rw [visible_lines_eq_drop_take]
    exact List.length_take_le _ _
  · intro h
    rw [visible_lines_eq_drop_take, List.drop_eq_nil_of_le h, List.take_nil]

/-- Witness for C7: a slice in the middle, and the empty result when the
scroll offset is past the end. -/
theorem visible_lines_bounded_witness :
    TextBuffer.visible_lines
        { lines := ["a", "b", "c", "d"], max_lines := 2, scroll_position := 1 }
      = ["b", "c"] ∧
    TextBuffer.visible_lines
        { lines := ["a", "b"], max_lines := 2, scroll_position := 5 }
      = [] := by
  constructor
  · rw [(visible_lines_bounded _).1]
    decide
  · exact (visible_lines_bounded _).2.2 (by decide)

/-- C8: when the scroll offset lies in [0, max_scroll] with
max_scroll = len(lines).saturating_sub(max_lines), scroll_up and
scroll_down move it by at most one and keep it in [0, max_scroll] (the
lower bound 0 is automatic for the usize offset), and scroll_down at
max_scroll is a no-op, so repeated calls past the bottom are idempotent
there. -/
theorem scroll_clamped (b : TextBuffer) (h : b.scroll_position ≤ b.maxScroll) :
    b.scroll_up.scroll_position ≤ b.maxScroll ∧
    b.scroll_down.scroll_position ≤ b.maxScroll ∧
    b.scroll_position - b.scroll_up.scroll_position ≤ 1 ∧
    b.scroll_up.scroll_position ≤ b.scroll_position ∧
    b.scroll_down.scroll_position - b.scroll_position ≤ 1 ∧
    b.scroll_position ≤ b.scroll_down.scroll_position ∧
    (b.scroll_position = b.maxScroll → b.scroll_down = b) := by
  have hds : b.scroll_position = b.maxScroll → b.scroll_down = b := by
    intro heq
    have hn : ¬(b.scroll_position < b.lines.length - b.max_lines) := by
      unfold TextBuffer.maxScroll at heq
      omega
    simp [TextBuffer.scroll_down, hn]
  refine ⟨?_, ?_, ?_, ?_, ?_, ?_, hds⟩ <;>
    by_cases h1 : b.scroll_position > 0 <;>
    by_cases h2 : b.scroll_position < b.lines.length - b.max_lines <;>
    simp [TextBuffer.scroll_up, TextBuffer.scroll_down, TextBuffer.maxScroll, h1, h2] at h ⊢ <;>
    omega

/-- Witness for C8 on a buffer with three lines, viewport one line and
scroll offset one, where max_scroll is two. -/
theorem scroll_clamped_witness :
    (TextBuffer.scroll_down
        { lines := ["a", "b", "c"], max_lines := 1, scroll_position := 1 }).scroll_position
      ≤ TextBuffer.maxScroll
          { lines := ["a", "b", "c"], max_lines := 1, scroll_position := 1 } :=
  (scroll_clamped _ (by decide)).2.1

/-- C5 counterexample: in the state with lines a, b, c, capacity 2 and
scroll offset 0, is_at_bottom is false before the append, yet add_line
moves the scroll offset from 0 to 1 instead of preserving it. -/
theorem add_line_preserves_scroll_counterexample :
    TextBuffer.is_at_bottom
        { lines := ["a", "b", "c"], max_lines := 2, scroll_position := 0 }
      = false ∧
    (TextBuffer.add_line
        { lines := ["a", "b", "c"], max_lines := 2, scroll_position := 0 } "d").scroll_position
      = 1 ∧
    (TextBuffer.add_line
        { lines := ["a", "b", "c"], max_lines := 2, scroll_position := 0 } "d").scroll_position
      ≠ 0 := by
  decide

/-- C5 amended: add_line unconditionally sets the scroll offset to the
new max_scroll and so always leaves the buffer at the bottom (the
auto-scroll comment at line 54). When is_at_bottom() was true before the
append this is exactly the claimed auto-stick; but when the viewer had
scrolled away from the bottom the offset is reset to max_scroll rather
than preserved. In every state the program reaches the two policies
coincide, because capacity equals viewport height there, so is_at_bottom
is always true. -/
theorem add_line_always_sticks_to_bottom (b : TextBuffer) (x : String) :
    (b.add_line x).scroll_position = (b.add_line x).maxScroll ∧
    (b.add_line x).is_at_bottom = true := by
  have h1 := add_line_scroll_position b x
  have h2 := add_line_max_lines b x
  constructor
  · rw [h1]
    unfold TextBuffer.maxScroll
    rw [h2]
  · simp [TextBuffer.is_at_bottom, h1, h2]

/-- Invariant of every buffer the running program holds: capacity 1000,
at most 1000 lines, scroll offset 0. -/
def GoodBuf (b : TextBuffer) : Prop :=
  b.max_lines = 1000 ∧ b.lines.length ≤ 1000 ∧ b.scroll_position = 0

theorem goodBuf_add_line {b : TextBuffer} (hb : GoodBuf b) (s : String) :
    GoodBuf (b.add_line s) := by
  obtain ⟨hm, hl, hs⟩ := hb
  have hlen := add_line_length_le b s (by omega) (by omega)
  refine ⟨?_, by omega, ?_⟩
  · rw [add_line_max_lines, hm]
  · have h1 := add_line_scroll_position b s
    omega

theorem goodBuf_applyOp {b : TextBuffer} (hb : GoodBuf b) (op : ConsoleOp) :
    GoodBuf (applyOp b op) := by
  obtain ⟨hm, hl, hs⟩ := hb
  cases op with
  | addLine s => exact goodBuf_add_line ⟨hm, hl, hs⟩ s
  | scrollUp =>
      refine ⟨?_, ?_, ?_⟩ <;> simp [applyOp, TextBuffer.scroll_up, hs, hm, hl]
  | scrollDown =>
      have hn : ¬(b.scroll_position < b.lines.length - b.max_lines) := by omega
      refine ⟨?_, ?_, ?_⟩ <;> simp [applyOp, TextBuffer.scroll_down, hn, hm, hl, hs]
  | scrollTop => exact ⟨hm, hl, rfl⟩
  | scrollBottom =>
      refine ⟨hm, hl, ?_⟩
      show b.lines.length - b.max_lines = 0
      omega
  | clearCmd =>
      exact show GoodBuf ((TextBuffer.new 1000).add_line "Terminal cleared.") from
        ⟨by decide, by decide, by decide⟩

theorem reachable_goodBuf {b : TextBuffer} (h : Reachable b) : GoodBuf b := by
  induction h with
  | startup => exact ⟨by decide, by decide, by decide⟩
  | step op _ ih => exact goodBuf_applyOp ih op

/-- C6: in every buffer state reachable from startup, including after the
clear command, the scroll offset is 0, because the same max_lines value
serves as both capacity and viewport height so max_scroll is always 0;
hence every operation leaves the scroll offset at 0, is_at_bottom always
returns true, and visible_lines returns the whole lines sequence. -/
theorem reachable_scroll_position_zero (b : TextBuffer) (h : Reachable b) :
    b.scroll_position = 0 ∧
    b.is_at_bottom = true ∧
    b.visible_lines = b.lines ∧
    (∀ s : String, (b.add_line s).scroll_position = 0) ∧
    b.scroll_up.scroll_position = 0 ∧
    b.scroll_down.scroll_position = 0 ∧
    b.scroll_to_top.scroll_position = 0 ∧
    b.scroll_to_bottom.scroll_position = 0 := by
  obtain ⟨hm, hl, hs⟩ := reachable_goodBuf h
  refine ⟨hs, ?_, ?_, ?_, ?_, ?_, rfl, ?_⟩
  · simp only [TextBuffer.is_at_bottom, hs, hm, decide_eq_true_eq]
    omega
  · rw [visible_lines_eq_drop_take, hs, List.drop_zero, hm]
    exact List.take_of_length_le hl
  · intro s
    exact (goodBuf_add_line ⟨hm, hl, hs⟩ s).2.2
  · exact (goodBuf_applyOp ⟨hm, hl, hs⟩ ConsoleOp.scrollUp).2.2
  · exact (goodBuf_applyOp ⟨hm, hl, hs⟩ ConsoleOp.scrollDown).2.2
  · exact (goodBuf_applyOp ⟨hm, hl, hs⟩ ConsoleOp.scrollBottom).2.2

/-- Witness for C6 at the startup buffer itself. -/
theorem reachable_scroll_position_zero_witness :
    startupBuffer.scroll_position = 0 ∧ startupBuffer.is_at_bottom = true := by
  have h := reachable_scroll_position_zero startupBuffer Reachable.startup
  exact ⟨h.1, h.2.1⟩

theorem processCmdLower_echo (cmd : String) (s : AppState) (t d : String)
    (h : startsWithStr cmd "echo " = true) :
    processCmdLower cmd s t d =
      { s with text_buffer := s.text_buffer.add_line (dropStr cmd 5) } := by
  have h1 : ¬(cmd = "help" ∨ cmd = "?") := by
    rintro (rfl | rfl) <;> exact absurd h (by decide)
  have h2 : ¬(cmd = "clear") := by rintro rfl; exact absurd h (by decide)
  have h3 : ¬(cmd = "status") := by rintro rfl; exact absurd h (by decide)
  simp only [processCmdLower, if_neg h1, if_neg h2, if_neg h3, if_pos h]

theorem processCmdLower_unknown (cmd : String) (s : AppState) (t d : String)
    (h1 : ¬(cmd = "help" ∨ cmd = "?")) (h2 : ¬(cmd = "clear")) (h3 : ¬(cmd = "status"))
    (h4 : startsWithStr cmd "echo " = false) (h5 : ¬(cmd = "time")) (h6 : ¬(cmd = "date"))
    (h7 : ¬(cmd = "async-task")) (h8 : ¬(cmd = "log")) (h9 : ¬(cmd = "scroll-top"))
    (h10 : ¬(cmd = "scroll-bottom")) (h11 : ¬(cmd = "")) :
    processCmdLower cmd s t d =
      { s with text_buffer :=
          (s.text_buffer.add_line
            ("Unknown command: \x27" ++ cmd ++ "\x27. Type \x27help\x27 for available commands.")) } := by
  have h4' : ¬(startsWithStr cmd "echo " = true) := by simp [h4]
  simp only [processCmdLower, if_neg h1, if_neg h2, if_neg h3, if_neg h4', if_neg h5,
    if_neg h6, if_neg h7, if_neg h8, if_neg h9, if_neg h10, if_neg h11]

theorem processCmdLower_clear (s : AppState) (t d : String) :
    processCmdLower "clear" s t d =
      { s with text_buffer := (TextBuffer.new 1000).add_line "Terminal cleared." } := by
  have h1 : ¬("clear" = "help" ∨ "clear" = "?") := by decide
  unfold processCmdLower
  rw [if_neg h1, if_pos rfl]

/-- C3 corrected: the code lowercases the whole trimmed input before
dispatch, so the echo argument is NOT preserved in its original casing:
for any input whose trimmed lowercased form starts with "echo ", the
appended line is that lowercased form with the first five characters
removed. On an already-lowercase input such as "echo hello world" this
appends exactly "hello world". An empty echo argument cannot reach the
echo arm at all: "echo " trims to "echo", which matches no arm and
produces the unknown-command diagnostic instead of an empty line. -/
theorem echo_lowercases_argument :
    (∀ (cmd : String) (s : AppState) (t d : String),
        startsWithStr cmd "echo " = true →
        processCmdLower cmd s t d =
          { s with text_buffer := s.text_buffer.add_line (dropStr cmd 5) }) ∧
    (∀ (s : AppState) (t d : String),
        process_command "echo hello world" s t d =
          { s with text_buffer := s.text_buffer.add_line "hello world" }) ∧
    (∀ (s : AppState) (t d : String),
        process_command "echo " s t d =
          { s with text_buffer := (s.text_buffer.add_line
              "Unknown command: \x27echo\x27. Type \x27help\x27 for available commands.") }) := by
  refine ⟨processCmdLower_echo, ?_, ?_⟩
  · intro s t d
    have e : toLowerStr (trimStr "echo hello world") = "echo hello world" := by decide
    have h := processCmdLower_echo "echo hello world" s t d (by decide)
    have e2 : dropStr "echo hello world" 5 = "hello world" := by decide
    simp only [process_command, e, h, e2]
  · intro s t d
    have e : toLowerStr (trimStr "echo ") = "echo" := by decide
    have h := processCmdLower_unknown "echo" s t d (by decide) (by decide) (by decide)
      (by decide) (by decide) (by decide) (by decide) (by decide) (by decide) (by decide)
      (by decide)
    have e2 : ("Unknown command: \x27" ++ "echo" ++ "\x27. Type \x27help\x27 for available commands.")
        = "Unknown command: \x27echo\x27. Type \x27help\x27 for available commands." := by decide
    simp only [process_command, e, h, e2]

/-- Witness for C3 applying the general echo arm at a concrete input. -/
theorem echo_lowercases_argument_witness :
    processCmdLower "echo abc" sampleState "00:00:00" "2026-01-01" =
      { sampleState with text_buffer := sampleState.text_buffer.add_line "abc" } := by
  have h := echo_lowercases_argument.1 "echo abc" sampleState "00:00:00" "2026-01-01" (by decide)
  have e : dropStr "echo abc" 5 = "abc" := by decide
  rw [h, e]

/-- C3 counterexample: the input echo Hello appends the lowercased line
hello, not Hello with its original casing. -/
theorem echo_preserves_case_counterexample :
    (process_command "echo Hello" sampleState "00:00:00" "2026-01-01").text_buffer.lines
      ≠ sampleState.text_buffer.lines ++ ["Hello"] ∧
    (process_command "echo Hello" sampleState "00:00:00" "2026-01-01").text_buffer.lines
      = ["hello"] := by
  decide

/-- C4 amended: the clear command replaces the buffer wholesale with a
fresh TextBuffer of capacity 1000 (the same constant every buffer in the
program is built with) and then appends the confirmation line, so
afterwards the buffer holds exactly the one line "Terminal cleared."
(len(lines) is 1, not 0), the scroll offset is 0, and the status message
is untouched. -/
theorem clear_resets_buffer (s : AppState) (t d : String) :
    process_command "clear" s t d =
      { s with text_buffer := (TextBuffer.new 1000).add_line "Terminal cleared." } ∧
    ((TextBuffer.new 1000).add_line "Terminal cleared.").lines = ["Terminal cleared."] ∧
    ((TextBuffer.new 1000).add_line "Terminal cleared.").scroll_position = 0 ∧
    ((TextBuffer.new 1000).add_line "Terminal cleared.").max_lines = 1000 := by
  refine ⟨?_, by decide, by decide, by decide⟩
  have e : toLowerStr (trimStr "clear") = "clear" := by decide
  simp only [process_command, e]
  exact processCmdLower_clear s t d

/-- C4 counterexample: right after the clear command the buffer holds the
confirmation line, so len(lines) is 1, not 0 as claimed. -/
theorem clear_leaves_empty_counterexample :
    (process_command "clear" sampleState "00:00:00" "2026-01-01").text_buffer.lines.length
      ≠ 0 ∧
    (process_command "clear" sampleState "00:00:00" "2026-01-01").text_buffer.lines
      = ["Terminal cleared."] := by
  decide

/-- C9 amended: for every trimmed, lowercased input that matches no
dispatch arm, the interpreter appends exactly one diagnostic line, but
the quoted text is the ENTIRE lowercased input, not just its verb; for a
single-token input such as bogus the two coincide, and the exact claimed
line is produced. -/
theorem unknown_command_full_input :
    (∀ (cmd : String) (s : AppState) (t d : String),
        ¬(cmd = "help" ∨ cmd = "?") → ¬(cmd = "clear") → ¬(cmd = "status") →
        startsWithStr cmd "echo " = false → ¬(cmd = "time") → ¬(cmd = "date") →
        ¬(cmd = "async-task") → ¬(cmd = "log") → ¬(cmd = "scroll-top") →
        ¬(cmd = "scroll-bottom") → ¬(cmd = "") →
        processCmdLower cmd s t d =
          { s with text_buffer :=
              (s.text_buffer.add_line
                ("Unknown command: \x27" ++ cmd ++
                  "\x27. Type \x27help\x27 for available commands.")) }) ∧
    (∀ (s : AppState) (t d : String),
        process_command "bogus" s t d =
          { s with text_buffer := (s.text_buffer.add_line
              "Unknown command: \x27bogus\x27. Type \x27help\x27 for available commands.") }) := by
  refine ⟨processCmdLower_unknown, ?_⟩
  intro s t d
  have e : toLowerStr (trimStr "bogus") = "bogus" := by decide
  have h := processCmdLower_unknown "bogus" s t d (by decide) (by decide) (by decide)
    (by decide) (by decide) (by decide) (by decide) (by decide) (by decide) (by decide)
    (by decide)
  have e2 : ("Unknown command: \x27" ++ "bogus" ++ "\x27. Type \x27help\x27 for available commands.")
      = "Unknown command: \x27bogus\x27. Type \x27help\x27 for available commands." := by decide
  simp only [process_command, e, h, e2]

/-- Witness for C9 applying the general unknown arm at a concrete input. -/
theorem unknown_command_full_input_witness :
    processCmdLower "xyz" sampleState "00:00:00" "2026-01-01" =
      { sampleState with text_buffer :=
          (sampleState.text_buffer.add_line
            ("Unknown command: \x27" ++ "xyz" ++
              "\x27. Type \x27help\x27 for available commands.")) } :=
  unknown_command_full_input.1 "xyz" sampleState "00:00:00" "2026-01-01" (by decide) (by decide)
    (by decide) (by decide) (by decide) (by decide) (by decide) (by decide) (by decide)
    (by decide) (by decide)

/-- C9 counterexample: for the input bogus extra, whose verb bogus is
unrecognized, the appended diagnostic embeds the entire input, not
the verb alone as the claim says. -/
theorem unknown_command_verb_counterexample :
    (process_command "bogus extra" sampleState "00:00:00" "2026-01-01").text_buffer.lines
      ≠ sampleState.text_buffer.lines ++
          ["Unknown command: \x27bogus\x27. Type \x27help\x27 for available commands."] ∧
    (process_command "bogus extra" sampleState "00:00:00" "2026-01-01").text_buffer.lines
      = ["Unknown command: \x27bogus extra\x27. Type \x27help\x27 for available commands."] := by
  decide

/-- C10 amended: the tick loop applies drained messages in FIFO order;
NewLine(text) appends text verbatim; TaskCompleted(text) appends the
prefixed line "[ASYNC] " ++ text, not text verbatim, and sets the status
summary to "STATUS: " ++ text. -/
theorem drain_message_effects (s : AppState) (text : String) (m : AppMessage)
    (msgs : List AppMessage) :
    applyMessage s (AppMessage.NewLine text) =
      { s with text_buffer := s.text_buffer.add_line text } ∧
    applyMessage s (AppMessage.TaskCompleted text) =
      { text_buffer := s.text_buffer.add_line ("[ASYNC] " ++ text),
        status_message := "STATUS: " ++ text } ∧
    drainAll s (m :: msgs) = drainAll (applyMessage s m) msgs ∧
    drainAll s [] = s :=
  ⟨rfl, rfl, rfl, rfl⟩

/-- C10 counterexample: a TaskCompleted message appends the line with the
[ASYNC] prefix, not the payload verbatim. -/
theorem task_completed_verbatim_counterexample :
    (applyMessage sampleState (AppMessage.TaskCompleted "done")).text_buffer.lines
      ≠ sampleState.text_buffer.lines ++ ["done"] ∧
    (applyMessage sampleState (AppMessage.TaskCompleted "done")).text_buffer.lines
      = ["[ASYNC] done"] ∧
    (applyMessage sampleState (AppMessage.TaskCompleted "done")).status_message
      = "STATUS: done" := by
  decide

end NeoGui
